import Mathlib

/-!
Shallow embedding of the `accounts` app of the Old_workign_FB repository
(Django + DRF backend for teams, tasks, todos and direct messaging).

Relational rows are modelled as structures, the database as lists of rows
inside a single `Store`, and each HTTP endpoint as a function
`Store → … → Store × Except ApiError α`: on error the original store is
returned (no mutation), mirroring that Django validation errors, 404s and
uncaught exceptions abort the request before any row is written, and that
the claims under study never hinge on a partially-committed transaction.

Django's `auto_now_add` timestamps are modelled by a `now : Nat` clock in
the store that advances on each row creation; primary keys by per-table
`next…Id` counters.  `order_by("timestamp")` is a stable sort by the
timestamp column, modelled with `List.insertionSort` (stable, like the
database sort).
-/

/-- Row of the `User` table (`accounts/models.py`).  `id` is the implicit
auto primary key, `userId` the `user_id` CharField.  `passwordUsable`
models Django's `has_usable_password()` state: `set_unusable_password`
makes it false, `set_password` with a real password makes it true. -/
structure UserR where
  id : Nat
  userId : String
  email : String
  isAdmin : Bool
  isTeamlead : Bool
  isActive : Bool
  passwordUsable : Bool
  deriving DecidableEq, Repr

/-- Row of the `Team` table: `created_by` FK and the `members`
many-to-many set, kept as a list of user primary keys. -/
structure TeamR where
  id : Nat
  name : String
  description : String
  createdBy : Nat
  members : List Nat
  deriving DecidableEq, Repr

/-- Row of the `Task` table: `parent_task` is the optional self FK
(`none` for a top-level task), dates are days as naturals, `priority`
and `status` the choice strings. -/
structure TaskR where
  id : Nat
  title : String
  description : String
  createdBy : Nat
  parentTask : Option Nat
  startDate : Nat
  endDate : Nat
  priority : String
  status : String
  deriving DecidableEq, Repr

/-- Row of the `Conversation` table: `user1`/`user2` are FK user ids. -/
structure ConversationR where
  id : Nat
  user1 : Nat
  user2 : Nat
  deriving DecidableEq, Repr

/-- Row of the `Message` table. -/
structure MessageR where
  id : Nat
  conversation : Nat
  sender : Nat
  text : String
  isRead : Bool
  timestamp : Nat
  deriving DecidableEq, Repr

/-- The relational store.  Todos and attachments play no role in any
claim and their endpoints touch no other table, so they are omitted. -/
structure Store where
  users : List UserR
  teams : List TeamR
  tasks : List TaskR
  conversations : List ConversationR
  messages : List MessageR
  nextTeamId : Nat
  nextTaskId : Nat
  nextConvId : Nat
  nextMsgId : Nat
  now : Nat
  deriving DecidableEq, Repr

/-- How a request fails: `notFound` is a 404 (`get_object_or_404`,
`DoesNotExist` caught), `validationError` a DRF 400
(`is_valid(raise_exception=True)` or `serializers.ValidationError`),
`forbidden` a 403 permission denial, `serverError` an uncaught
exception (500). -/
inductive ApiError where
  | notFound
  | validationError
  | forbidden
  | serverError
  deriving DecidableEq, Repr

/-! ## Conversation canonicalization and messaging
(`views.py`: `get_or_create_conversation`, `SendMessageView`,
`ChatHistoryView`, `MessageByConversationAPIView`,
`ConversationListCreateAPIView`; `models.py`: `Conversation.save`). -/

/-- `Conversation.save` (models.py): before writing, swap the pair when
`self.user1.id > self.user2.id`, so the stored row always has the
smaller user id first. -/
def conversationSaveOrder (a b : UserR) : UserR × UserR :=
  if a.id > b.id then (b, a) else (a, b)

/-- `get_or_create_conversation(user1, user2)` (views.py line 324):
`u1, u2 = sorted([user1, user2], key=lambda u: u.id)` — a stable
two-element sort, swapping only when strictly out of order — then
`Conversation.objects.get_or_create(user1=u1, user2=u2)`.  The create
path goes through `Conversation.save`, which re-applies the swap (a
no-op here since the pair is already sorted).  Returns the new store,
the row, and Django's `created` flag. -/
def get_or_create_conversation (s : Store) (a b : UserR) :
    Store × ConversationR × Bool :=
  let p := if b.id < a.id then (b, a) else (a, b)
  match s.conversations.find?
      (fun c => c.user1 == p.1.id && c.user2 == p.2.id) with
  | some c => (s, c, false)
  | none =>
      let q := conversationSaveOrder p.1 p.2
      let c : ConversationR :=
        { id := s.nextConvId, user1 := q.1.id, user2 := q.2.id }
      ({ s with conversations := s.conversations ++ [c],
                nextConvId := s.nextConvId + 1,
                now := s.now + 1 }, c, true)

/-- `SendMessageView.post` (views.py): look up the receiver by primary
key (`User.objects.get(id=receiver_id)` raises on a miss — an uncaught
500), get-or-create the canonical conversation, then append a message
with `sender = request.user`.  Returns the new message id. -/
def sendMessage (s : Store) (caller : UserR) (receiverId : Nat)
    (text : String) : Store × Except ApiError Nat :=
  match s.users.find? (fun u => u.id == receiverId) with
  | none => (s, .error .serverError)
  | some receiver =>
      let r := get_or_create_conversation s caller receiver
      let s1 := r.1
      let m : MessageR :=
        { id := s1.nextMsgId, conversation := r.2.1.id,
          sender := caller.id, text := text, isRead := false,
          timestamp := s1.now }
      ({ s1 with messages := s1.messages ++ [m],
                 nextMsgId := s1.nextMsgId + 1,
                 now := s1.now + 1 }, .ok m.id)

/-- Ordering used by `order_by("timestamp")`: compare rows by the
timestamp column. -/
def tsLe (m1 m2 : MessageR) : Prop := m1.timestamp ≤ m2.timestamp

instance : DecidableRel tsLe := fun a b => Nat.decLe a.timestamp b.timestamp

instance : IsTotal MessageR tsLe := ⟨fun a b => Nat.le_total a.timestamp b.timestamp⟩

instance : IsTrans MessageR tsLe := ⟨fun _ _ _ h1 h2 => Nat.le_trans h1 h2⟩

/-- `ChatHistoryView.get` (views.py): resolve the other user by primary
key (uncaught `DoesNotExist` on a miss), get-or-create the canonical
conversation — a write side effect on a GET — and return that
conversation's messages ordered by timestamp. -/
def chatHistory (s : Store) (caller : UserR) (userId : Nat) :
    Store × Except ApiError (List MessageR) :=
  match s.users.find? (fun u => u.id == userId) with
  | none => (s, .error .serverError)
  | some other =>
      let r := get_or_create_conversation s caller other
      let s1 := r.1
      let msgs := s1.messages.filter (fun m => m.conversation == r.2.1.id)
      (s1, .ok (List.insertionSort tsLe msgs))

/-- `MessageByConversationAPIView.get_queryset` (views.py): fetch the
conversation by id (uncaught `DoesNotExist` on a miss); if the caller
is neither participant return the empty queryset, else the
conversation's messages ordered by timestamp.  Read-only. -/
def listMessages (s : Store) (caller : UserR) (conversationId : Nat) :
    Except ApiError (List MessageR) :=
  match s.conversations.find? (fun c => c.id == conversationId) with
  | none => .error .serverError
  | some conv =>
      if caller.id ≠ conv.user1 ∧ caller.id ≠ conv.user2 then .ok []
      else
        .ok (List.insertionSort tsLe
          (s.messages.filter (fun m => m.conversation == conv.id)))

/-- `MessageByConversationAPIView.perform_create` (views.py): fetch the
conversation by id and save a message with `sender = request.user` and
that conversation.  No participant check is performed on this create
path (`get_queryset` is not consulted for POST). -/
def postMessageToConversation (s : Store) (caller : UserR)
    (conversationId : Nat) (text : String) : Store × Except ApiError Nat :=
  match s.conversations.find? (fun c => c.id == conversationId) with
  | none => (s, .error .serverError)
  | some conv =>
      let m : MessageR :=
        { id := s.nextMsgId, conversation := conv.id,
          sender := caller.id, text := text, isRead := false,
          timestamp := s.now }
      ({ s with messages := s.messages ++ [m],
                nextMsgId := s.nextMsgId + 1,
                now := s.now + 1 }, .ok m.id)

/-- `ConversationListCreateAPIView.perform_create` (views.py):
`serializer.save(user1=self.request.user)`.  `ConversationSerializer`
declares both `user1` and `user2` read-only, so only `user1` ever
reaches the model; `Conversation.save` then dereferences the unset
non-null `user2` FK and raises (`RelatedObjectDoesNotExist`) before any
`INSERT` — an uncaught 500 with no row written. -/
def conversationCreate (s : Store) (_caller : UserR) :
    Store × Except ApiError Nat :=
  (s, .error .serverError)

/-! ## Permissions (`permissions.py`, `views.py`) -/

/-- `IsAdminOrTeamLead.has_permission` (permissions.py): the caller is
authenticated (all modelled callers are) and is admin or team-lead.
Its docstring says it is used for team creation. -/
def is_admin_or_teamlead (u : UserR) : Bool := u.isAdmin || u.isTeamlead

/-- `TeamViewSet.get_permissions` (views.py) for the `create` action:
`create` is not in `["update", "partial_update", "destroy"]`, so the
branch returns `[IsAuthenticated()]` only — `IsAdminOrTeamLead` is
never attached to team creation.  For an authenticated caller this is
always true. -/
def teamCreatePermission (_u : UserR) : Bool := true

/-! ## Team creation (`views.py` TeamViewSet, `serializers.py`
CreateTeamSerializer) -/

/-- `TeamViewSet` create path: permission check per `get_permissions`,
then `CreateTeamSerializer` validation (`name` is a required
non-blank CharField; `members` resolve user ids, each of which must
exist), then `perform_create`: save with `created_by = caller`, add the
caller to the members set, then add the requested members. -/
def createTeam (s : Store) (caller : UserR) (name description : String)
    (memberIds : List Nat) : Store × Except ApiError Nat :=
  if teamCreatePermission caller then
    if name = "" ∨ ¬ (memberIds.all (fun i => s.users.any (fun u => u.id == i))) then
      (s, .error .validationError)
    else
      let t : TeamR :=
        { id := s.nextTeamId, name := name, description := description,
          createdBy := caller.id, members := caller.id :: memberIds }
      ({ s with teams := s.teams ++ [t], nextTeamId := s.nextTeamId + 1 },
       .ok t.id)
  else (s, .error .forbidden)

/-! ## Task payload validation (`serializers.py`) -/

/-- Raw request payload for one entry of `subtasks_data`, before
validation.  `none` means the key is absent from the request (or, for
the date fields, unparseable).  The raw data may carry an `id` key —
`SubtaskCreateSerializer` declares no `id` field (the declaration is
commented out), so validation drops it. -/
structure SubtaskPayload where
  id : Option Nat
  title : Option String
  description : Option String
  startDate : Option Nat
  endDate : Option Nat
  priority : Option String
  status : Option String
  deriving DecidableEq, Repr

/-- One entry of `validated_data` for a subtask.  `id` is kept as a
field so that `TaskSerializer.update`'s `sub.get("id")` can be
transcribed literally; validation always sets it to `none` because the
serializer declares no `id` field. -/
structure ValidatedSubtask where
  id : Option Nat
  title : String
  description : Option String
  startDate : Nat
  endDate : Nat
  priority : String
  status : String
  deriving DecidableEq, Repr

/-- `Task.PRIORITY_CHOICES` membership. -/
def validPriority (p : String) : Bool :=
  p == "LOW" || p == "MEDIUM" || p == "HIGH"

/-- `Task.STATUS_CHOICES` membership. -/
def validStatus (st : String) : Bool :=
  st == "PENDING" || st == "IN_PROGRESS" || st == "COMPLETED"

/-- `SubtaskCreateSerializer` validation: `title` required non-blank;
`description` optional (blank allowed); both dates required;
`priority` a required choice; `status` an optional choice defaulting to
`"PENDING"`.  The raw `id` key is not a declared field and never
reaches `validated_data`. -/
def validateSubtask (p : SubtaskPayload) : Option ValidatedSubtask :=
  match p.title, p.startDate, p.endDate, p.priority with
  | some t, some sd, some ed, some pr =>
      if t ≠ "" ∧ validPriority pr then
        match p.status with
        | none =>
            some { id := none, title := t, description := p.description,
                   startDate := sd, endDate := ed, priority := pr,
                   status := "PENDING" }
        | some st =>
            if validStatus st then
              some { id := none, title := t, description := p.description,
                     startDate := sd, endDate := ed, priority := pr,
                     status := st }
            else none
      else none
  | _, _, _, _ => none

/-- Raw request payload for the top-level fields of `TaskSerializer`. -/
structure TaskPayload where
  title : Option String
  description : Option String
  startDate : Option Nat
  endDate : Option Nat
  priority : Option String
  status : Option String
  deriving DecidableEq, Repr

/-- `validated_data` for the top-level task fields.  Fields that are
optional in the serializer and absent from the request stay `none`:
on create the model defaults apply, on update the old value is kept. -/
structure ValidatedTaskFields where
  title : String
  description : Option String
  startDate : Nat
  endDate : Nat
  priority : Option String
  status : Option String
  deriving DecidableEq, Repr

/-- `TaskSerializer` validation of the top-level fields: `title` and
both dates required, `description` optional blank, `priority` and
`status` optional choices (the model supplies defaults `MEDIUM` /
`PENDING` on create). -/
def validateTaskFields (p : TaskPayload) : Option ValidatedTaskFields :=
  match p.title, p.startDate, p.endDate with
  | some t, some sd, some ed =>
      if (t != "") && p.priority.all validPriority && p.status.all validStatus then
        some { title := t, description := p.description, startDate := sd,
               endDate := ed, priority := p.priority, status := p.status }
      else none
  | _, _, _ => none

/-! ## Task endpoints (`views.py` TaskViewSet, `serializers.py`
TaskSerializer) -/

/-- `Task.objects.create` for the top-level task: model defaults
`description = ""`, `priority = "MEDIUM"`, `status = "PENDING"` fill in
fields absent from `validated_data`; `parent_task` stays null. -/
def taskFromValidated (id ownerId : Nat) (vf : ValidatedTaskFields) : TaskR :=
  { id := id, title := vf.title, description := vf.description.getD "",
    createdBy := ownerId, parentTask := none,
    startDate := vf.startDate, endDate := vf.endDate,
    priority := vf.priority.getD "MEDIUM", status := vf.status.getD "PENDING" }

/-- `Task.objects.create(parent_task=…, created_by=…, **sub)` for one
validated subtask entry (the model default fills an absent
description). -/
def subtaskRow (id ownerId parentId : Nat) (v : ValidatedSubtask) : TaskR :=
  { id := id, title := v.title, description := v.description.getD "",
    createdBy := ownerId, parentTask := some parentId,
    startDate := v.startDate, endDate := v.endDate,
    priority := v.priority, status := v.status }

/-- The `for sub in subtasks_data` loop of `TaskSerializer.create`:
one subtask row per entry, linked to the parent. -/
def appendSubtasks (ownerId parentId : Nat) :
    Store → List ValidatedSubtask → Store
  | s, [] => s
  | s, v :: rest =>
      appendSubtasks ownerId parentId
        { s with tasks := s.tasks ++ [subtaskRow s.nextTaskId ownerId parentId v],
                 nextTaskId := s.nextTaskId + 1, now := s.now + 1 } rest

/-- `SubtaskCreateSerializer(many=True)` validation of the whole
`subtasks_data` list: every entry must validate, otherwise the list is
rejected. -/
def validateSubtasks : List SubtaskPayload → Option (List ValidatedSubtask)
  | [] => some []
  | p :: rest =>
      match validateSubtask p, validateSubtasks rest with
      | some v, some vs => some (v :: vs)
      | _, _ => none

/-- `TaskViewSet` create path: `serializer.is_valid(raise_exception=True)`
validates the top-level fields and every `subtasks_data` entry before
`TaskSerializer.create` runs, so an invalid entry aborts the request
with a 400 before any row is written; otherwise the main task and its
subtasks are created. -/
def createTask (s : Store) (caller : UserR) (fields : TaskPayload)
    (subs : List SubtaskPayload) : Store × Except ApiError Nat :=
  match validateTaskFields fields, validateSubtasks subs with
  | some vf, some vsubs =>
      let main := taskFromValidated s.nextTaskId caller.id vf
      let s1 := { s with tasks := s.tasks ++ [main],
                         nextTaskId := s.nextTaskId + 1, now := s.now + 1 }
      (appendSubtasks caller.id main.id s1 vsubs, .ok main.id)
  | _, _ => (s, .error .validationError)

/-- The `setattr` loop of `TaskSerializer.update` on the main task:
replace each field present in `validated_data`, keep the rest. -/
def applyMainFieldsUpdate (t : TaskR) (vf : ValidatedTaskFields) : TaskR :=
  { t with title := vf.title,
           description := vf.description.getD t.description,
           startDate := vf.startDate, endDate := vf.endDate,
           priority := vf.priority.getD t.priority,
           status := vf.status.getD t.status }

/-- The per-key `setattr` loop on an existing subtask (every key of the
validated entry except `"id"`). -/
def updateSubtaskFields (t : TaskR) (v : ValidatedSubtask) : TaskR :=
  { t with title := v.title, description := v.description.getD t.description,
           startDate := v.startDate, endDate := v.endDate,
           priority := v.priority, status := v.status }

/-- One iteration of the `for sub in subtasks_data` loop of
`TaskSerializer.update`: `sub_id = sub.get("id")`; `if sub_id:` is
Python truthiness, false for both a missing key and `0`.  When truthy,
`Task.objects.filter(id=sub_id, parent_task=instance).first()` and, if
found, update that row in place (silently skip if not); otherwise
create a new subtask row. -/
def applySubtaskEntry (ownerId instanceId : Nat) (s : Store)
    (v : ValidatedSubtask) : Store :=
  if v.id.getD 0 ≠ 0 then
    match s.tasks.find?
        (fun t => t.id == v.id.getD 0 && t.parentTask == some instanceId) with
    | some old =>
        let f := fun t => if t.id == old.id then updateSubtaskFields old v else t
        { s with tasks := s.tasks.map f }
    | none => s
  else
    { s with tasks := s.tasks ++ [subtaskRow s.nextTaskId ownerId instanceId v],
             nextTaskId := s.nextTaskId + 1, now := s.now + 1 }

/-- `TaskViewSet` update path: `get_object` is
`get_object_or_404(Task, id=pk, created_by=request.user)` (no
top-level filter), then `TaskSerializer.update`: replace the present
top-level fields, then run the subtask upsert loop. -/
def updateTask (s : Store) (caller : UserR) (pk : Nat) (fields : TaskPayload)
    (subs : List SubtaskPayload) : Store × Except ApiError Nat :=
  match s.tasks.find? (fun t => t.id == pk && t.createdBy == caller.id) with
  | none => (s, .error .notFound)
  | some inst =>
      match validateTaskFields fields, validateSubtasks subs with
      | some vf, some vsubs =>
          let inst1 := applyMainFieldsUpdate inst vf
          let f := fun t => if t.id == inst.id then inst1 else t
          let s1 := { s with tasks := s.tasks.map f }
          (vsubs.foldl (applySubtaskEntry caller.id inst.id) s1, .ok inst.id)
      | _, _ => (s, .error .validationError)

/-- `TaskViewSet.add_subtask` (views.py): `get_object_or_404(Task,
id=pk, created_by=request.user, parent_task__isnull=True)` — 404 when
the task is missing, not owned by the caller, or itself a subtask —
then validate the payload with `SubtaskCreateSerializer` and create the
subtask row. -/
def add_subtask (s : Store) (caller : UserR) (pk : Nat)
    (p : SubtaskPayload) : Store × Except ApiError Unit :=
  match s.tasks.find?
      (fun t => t.id == pk && t.createdBy == caller.id
        && t.parentTask == none) with
  | none => (s, .error .notFound)
  | some parent =>
      match validateSubtask p with
      | none => (s, .error .validationError)
      | some v =>
          ({ s with
             tasks := s.tasks ++ [subtaskRow s.nextTaskId caller.id parent.id v],
             nextTaskId := s.nextTaskId + 1, now := s.now + 1 }, .ok ())

/-! ## Set password (`serializers.py` SetPasswordSerializer,
`views.py` SetPasswordAPI) -/

/-- `user.save()` after mutating a fetched row: UPDATE by primary key. -/
def updateUserRow (users : List UserR) (u : UserR) : List UserR :=
  users.map (fun v => if v.id == u.id then u else v)

/-- `SetPasswordSerializer`: field validation first (`password` is a
required, non-blank CharField), then `validate`: fetch the user by
`user_id` and `email` (ValidationError "User not found" on a miss);
reject with ValidationError "Password already set" if
`has_usable_password()`; otherwise `save`: `set_password` (making the
credential usable), `is_active = True`, save the row. -/
def set_password (s : Store) (uid email pw : String) :
    Store × Except ApiError Unit :=
  if pw = "" then (s, .error .validationError)
  else
    match s.users.find? (fun v => v.userId == uid && v.email == email) with
    | none => (s, .error .validationError)
    | some u =>
        if u.passwordUsable then (s, .error .validationError)
        else
          let u1 : UserR := { u with passwordUsable := true, isActive := true }
          ({ s with users := updateUserRow s.users u1 }, .ok ())

/-! ## The modelled request surface and store invariants -/

/-- One authenticated API request against the modelled surface, naming
the caller by primary key (JWT authentication guarantees the caller row
exists; an unknown caller id leaves the store untouched). -/
inductive Op where
  | sendMsg (callerId receiverId : Nat) (text : String)
  | chatHist (callerId otherId : Nat)
  | listMsgs (callerId convId : Nat)
  | postMsg (callerId convId : Nat) (text : String)
  | convCreate (callerId : Nat)
  | teamCreate (callerId : Nat) (name description : String) (memberIds : List Nat)
  | taskCreate (callerId : Nat) (fields : TaskPayload) (subs : List SubtaskPayload)
  | taskUpdate (callerId taskId : Nat) (fields : TaskPayload) (subs : List SubtaskPayload)
  | subtaskAdd (callerId taskId : Nat) (p : SubtaskPayload)
  | passwordSet (uid email pw : String)
  deriving DecidableEq, Repr

/-- Dispatch one request and keep the resulting store. -/
def step (s : Store) : Op → Store
  | .sendMsg cid rid text =>
      match s.users.find? (fun u => u.id == cid) with
      | none => s
      | some caller => (sendMessage s caller rid text).1
  | .chatHist cid oid =>
      match s.users.find? (fun u => u.id == cid) with
      | none => s
      | some caller => (chatHistory s caller oid).1
  | .listMsgs _ _ => s
  | .postMsg cid convId text =>
      match s.users.find? (fun u => u.id == cid) with
      | none => s
      | some caller => (postMessageToConversation s caller convId text).1
  | .convCreate cid =>
      match s.users.find? (fun u => u.id == cid) with
      | none => s
      | some caller => (conversationCreate s caller).1
  | .teamCreate cid name description memberIds =>
      match s.users.find? (fun u => u.id == cid) with
      | none => s
      | some caller => (createTeam s caller name description memberIds).1
  | .taskCreate cid fields subs =>
      match s.users.find? (fun u => u.id == cid) with
      | none => s
      | some caller => (createTask s caller fields subs).1
  | .taskUpdate cid pk fields subs =>
      match s.users.find? (fun u => u.id == cid) with
      | none => s
      | some caller => (updateTask s caller pk fields subs).1
  | .subtaskAdd cid pk p =>
      match s.users.find? (fun u => u.id == cid) with
      | none => s
      | some caller => (add_subtask s caller pk p).1
  | .passwordSet uid email pw => (set_password s uid email pw).1

/-- Whether a request is a POST to the per-conversation message
endpoint (the only append path that skips the participant check). -/
def isPostMsg : Op → Bool
  | .postMsg _ _ _ => true
  | _ => false

/-- Two conversation rows carry the same unordered participant pair. -/
def matchesPair (c : ConversationR) (a b : Nat) : Bool :=
  (c.user1 == a && c.user2 == b) || (c.user1 == b && c.user2 == a)

/-- The conversation-store invariant claimed by the spec: every stored
row is strictly canonical (`user1.id < user2.id`). -/
def convCanonicalStrict (s : Store) : Prop :=
  ∀ c ∈ s.conversations, c.user1 < c.user2

/-- The conversation-store invariant the code actually maintains:
every stored row is weakly canonical (`user1.id ≤ user2.id`, equality
exactly for a self-conversation), and no two rows share an unordered
participant pair. -/
def convInv (s : Store) : Prop :=
  (∀ c ∈ s.conversations, c.user1 ≤ c.user2) ∧
  s.conversations.Pairwise (fun c d => matchesPair c d.user1 d.user2 = false)

/-- The message-store invariant claimed by the spec: every stored
message's sender is one of the two participants of its conversation. -/
def msgInv (s : Store) : Prop :=
  ∀ m ∈ s.messages, ∃ c ∈ s.conversations,
    c.id = m.conversation ∧ (m.sender = c.user1 ∨ m.sender = c.user2)

instance (s : Store) : Decidable (convCanonicalStrict s) :=
  List.decidableBAll _ _

instance (s : Store) : Decidable (convInv s) := by
  unfold convInv
  exact instDecidableAnd

instance (s : Store) : Decidable (msgInv s) := by
  unfold msgInv
  exact List.decidableBAll _ _

/-! ## Concrete fixtures used to instantiate the theorems -/

/-- A plain user (no role flags), id 1. -/
def wUserA : UserR :=
  { id := 1, userId := "alice", email := "alice@x.com", isAdmin := false,
    isTeamlead := false, isActive := true, passwordUsable := true }

/-- A freshly admin-created user, id 2, credential not yet set. -/
def wUserB : UserR :=
  { id := 2, userId := "bob", email := "bob@x.com", isAdmin := false,
    isTeamlead := false, isActive := false, passwordUsable := false }

/-- A third user, id 3, not a participant of the fixture conversation. -/
def wUserC : UserR :=
  { id := 3, userId := "carol", email := "carol@x.com", isAdmin := false,
    isTeamlead := false, isActive := true, passwordUsable := true }

/-- Base store: three users, no other rows. -/
def wStore0 : Store :=
  { users := [wUserA, wUserB, wUserC], teams := [], tasks := [],
    conversations := [], messages := [], nextTeamId := 1, nextTaskId := 1,
    nextConvId := 1, nextMsgId := 1, now := 0 }

/-- The canonical conversation between users 1 and 2. -/
def wConv1 : ConversationR := { id := 1, user1 := 1, user2 := 2 }

/-- Store with one conversation between users 1 and 2. -/
def wStore1 : Store := { wStore0 with conversations := [wConv1], nextConvId := 2 }

/-- Two messages of conversation 1, stored out of timestamp order. -/
def wMsg1 : MessageR :=
  { id := 1, conversation := 1, sender := 1, text := "later", isRead := false,
    timestamp := 5 }

/-- Second fixture message, earlier timestamp. -/
def wMsg2 : MessageR :=
  { id := 2, conversation := 1, sender := 2, text := "earlier", isRead := false,
    timestamp := 3 }

/-- Store with the conversation and both messages. -/
def wStore2 : Store := { wStore1 with messages := [wMsg1, wMsg2], nextMsgId := 3 }

/-- A top-level task owned by user 1. -/
def wTaskMain : TaskR :=
  { id := 1, title := "Main", description := "", createdBy := 1,
    parentTask := none, startDate := 0, endDate := 1, priority := "MEDIUM",
    status := "PENDING" }

/-- An existing subtask of `wTaskMain`, owned by user 1. -/
def wTaskSub : TaskR :=
  { id := 2, title := "Old", description := "", createdBy := 1,
    parentTask := some 1, startDate := 0, endDate := 1, priority := "LOW",
    status := "PENDING" }

/-- Store with the task pair. -/
def wStore3 : Store := { wStore0 with tasks := [wTaskMain, wTaskSub], nextTaskId := 3 }

/-- A valid top-level task payload. -/
def wFields : TaskPayload :=
  { title := some "Main", description := none, startDate := some 0,
    endDate := some 1, priority := none, status := none }

/-- A subtask payload whose raw data carries the id of the existing
subtask `wTaskSub` (id 2). -/
def wSubWithId : SubtaskPayload :=
  { id := some 2, title := some "New", description := none,
    startDate := some 10, endDate := some 20, priority := some "LOW",
    status := some "PENDING" }

/-- A subtask payload with an invalid priority choice. -/
def wBadSub : SubtaskPayload :=
  { id := none, title := some "S", description := none, startDate := some 1,
    endDate := some 2, priority := some "URGENT", status := none }

/-- A valid subtask payload with no id. -/
def wGoodSub : SubtaskPayload :=
  { id := none, title := some "S", description := none, startDate := some 1,
    endDate := some 2, priority := some "HIGH", status := none }

/-! ## Theorems -/

/-- C1: for distinct users A and B, `getOrCreateConversation(A,B)` and
`getOrCreateConversation(B,A)` produce identical results (same store,
same conversation row, same created flag): the pair is sorted by
numeric id ascending before fetching or creating. -/
theorem C1_get_or_create_conversation_order_independent
    (s : Store) (a b : UserR) (h : a.id ≠ b.id) :
    get_or_create_conversation s a b = get_or_create_conversation s b a := by
  unfold get_or_create_conversation
  rcases Nat.lt_trichotomy a.id b.id with hlt | heq | hgt
  · rw [if_neg (by omega : ¬ b.id < a.id), if_pos hlt]
  · exact absurd heq h
  · rw [if_pos hgt, if_neg (by omega : ¬ a.id < b.id)]

/-- Witness for C1 at the fixture users 1 and 2. -/
theorem C1_witness :
    wUserA.id ≠ wUserB.id ∧
    get_or_create_conversation wStore0 wUserA wUserB =
      get_or_create_conversation wStore0 wUserB wUserA :=
  ⟨by decide,
   C1_get_or_create_conversation_order_independent wStore0 wUserA wUserB
     (by decide)⟩

/-- Characterization of `get_or_create_conversation`: it looks up — and
on a miss creates — the row whose pair is the id-sorted permutation of
its two arguments, touching nothing else in the store. -/
theorem gocc_spec (s : Store) (a b : UserR) :
    ∃ u1 u2 : Nat,
      ((u1 = a.id ∧ u2 = b.id) ∨ (u1 = b.id ∧ u2 = a.id)) ∧ u1 ≤ u2 ∧
      ((s.conversations.find? (fun c => c.user1 == u1 && c.user2 == u2) =
          some (get_or_create_conversation s a b).2.1 ∧
        (get_or_create_conversation s a b).1 = s) ∨
       (s.conversations.find? (fun c => c.user1 == u1 && c.user2 == u2) =
          none ∧
        (get_or_create_conversation s a b).2.1 =
          { id := s.nextConvId, user1 := u1, user2 := u2 } ∧
        (get_or_create_conversation s a b).1 =
          { s with
            conversations := s.conversations ++ [(get_or_create_conversation s a b).2.1],
            nextConvId := s.nextConvId + 1,
            now := s.now + 1 })) := by
  unfold get_or_create_conversation conversationSaveOrder
  by_cases hba : b.id < a.id
  · refine ⟨b.id, a.id, Or.inr ⟨rfl, rfl⟩, by omega, ?_⟩
    rw [if_pos hba]
    simp only []
    cases hf : s.conversations.find?
        (fun c => c.user1 == b.id && c.user2 == a.id) with
    | some _ => simp only [hf]; exact Or.inl ⟨trivial, trivial⟩
    | none =>
        simp only [hf, gt_iff_lt, if_neg (by omega : ¬ a.id < b.id)]
        exact Or.inr ⟨trivial, trivial, trivial⟩
  · refine ⟨a.id, b.id, Or.inl ⟨rfl, rfl⟩, by omega, ?_⟩
    rw [if_neg hba]
    simp only []
    cases hf : s.conversations.find?
        (fun c => c.user1 == a.id && c.user2 == b.id) with
    | some _ => simp only [hf]; exact Or.inl ⟨trivial, trivial⟩
    | none =>
        simp only [hf, gt_iff_lt, if_neg (by omega : ¬ b.id < a.id)]
        exact Or.inr ⟨trivial, trivial, trivial⟩

/-- `get_or_create_conversation` leaves every table except
`conversations` (and the conversation id counter / clock) unchanged. -/
theorem gocc_frame (s : Store) (a b : UserR) :
    (get_or_create_conversation s a b).1.users = s.users ∧
    (get_or_create_conversation s a b).1.teams = s.teams ∧
    (get_or_create_conversation s a b).1.tasks = s.tasks ∧
    (get_or_create_conversation s a b).1.messages = s.messages ∧
    (get_or_create_conversation s a b).1.nextMsgId = s.nextMsgId := by
  obtain ⟨u1, u2, _, _, h | h⟩ := gocc_spec s a b
  · rw [h.2]; exact ⟨rfl, rfl, rfl, rfl, rfl⟩
  · rw [h.2.2]; exact ⟨rfl, rfl, rfl, rfl, rfl⟩

/-- The conversation table after `get_or_create_conversation` is the old
one, or the old one with the returned row appended. -/
theorem gocc_conversations_cases (s : Store) (a b : UserR) :
    (get_or_create_conversation s a b).1.conversations = s.conversations ∨
    (get_or_create_conversation s a b).1.conversations =
      s.conversations ++ [(get_or_create_conversation s a b).2.1] := by
  obtain ⟨u1, u2, _, _, h | h⟩ := gocc_spec s a b
  · rw [h.2]; exact Or.inl rfl
  · rw [h.2.2]; exact Or.inr rfl

/-- Every pre-existing conversation row survives
`get_or_create_conversation`. -/
theorem gocc_conversations_mem (s : Store) (a b : UserR)
    (c : ConversationR) (hc : c ∈ s.conversations) :
    c ∈ (get_or_create_conversation s a b).1.conversations := by
  rcases gocc_conversations_cases s a b with h | h <;> rw [h]
  · exact hc
  · exact List.mem_append_left _ hc

/-- The returned conversation row is stored. -/
theorem gocc_row_mem (s : Store) (a b : UserR) :
    (get_or_create_conversation s a b).2.1 ∈
      (get_or_create_conversation s a b).1.conversations := by
  obtain ⟨u1, u2, _, _, h | h⟩ := gocc_spec s a b
  · rw [h.2]; exact List.mem_of_find?_eq_some h.1
  · rw [h.2.2]; exact List.mem_append_right _ (List.mem_singleton.2 rfl)

/-- The first argument of `get_or_create_conversation` is one of the two
participants of the returned row. -/
theorem gocc_row_has_caller (s : Store) (a b : UserR) :
    (get_or_create_conversation s a b).2.1.user1 = a.id ∨
    (get_or_create_conversation s a b).2.1.user2 = a.id := by
  obtain ⟨u1, u2, hperm, _, h | h⟩ := gocc_spec s a b
  · have hp := List.find?_some h.1
    rw [Bool.and_eq_true, beq_iff_eq, beq_iff_eq] at hp
    rcases hperm with ⟨h1, _⟩ | ⟨_, h2⟩
    · exact Or.inl (hp.1.trans h1)
    · exact Or.inr (hp.2.trans h2)
  · rw [h.2.1]
    rcases hperm with ⟨h1, _⟩ | ⟨_, h2⟩
    · exact Or.inl h1
    · exact Or.inr h2

/-- `convInv` only looks at the conversation table. -/
theorem convInv_of_conversations_eq {s1 s2 : Store}
    (h : s2.conversations = s1.conversations) (hinv : convInv s1) :
    convInv s2 := by
  unfold convInv
  rw [h]
  exact hinv

/-- `get_or_create_conversation` preserves the weak-canonical /
unique-pair invariant of the conversation store. -/
theorem convInv_gocc (s : Store) (a b : UserR) (h : convInv s) :
    convInv (get_or_create_conversation s a b).1 := by
  obtain ⟨u1, u2, hperm, hle, hcase⟩ := gocc_spec s a b
  rcases hcase with ⟨_, heq⟩ | ⟨hnone, hrow, heq⟩
  · rw [heq]; exact h
  · rw [heq]
    constructor
    · intro c hc
      rcases List.mem_append.1 hc with hc | hc
      · exact h.1 c hc
      · rw [List.mem_singleton.1 hc, hrow]; exact hle
    · show List.Pairwise _ (s.conversations ++ [(get_or_create_conversation s a b).2.1])
      rw [List.pairwise_append]
      refine ⟨h.2, List.pairwise_singleton _ _, ?_⟩
      intro d hd c hc
      rw [List.mem_singleton.1 hc, hrow]
      have h1 := List.find?_eq_none.1 hnone d hd
      have h2 := h.1 d hd
      simp only [Bool.and_eq_true, beq_iff_eq, not_and] at h1
      simp only [matchesPair, Bool.or_eq_false_iff, Bool.and_eq_false_iff,
        beq_eq_false_iff_ne, ne_eq]
      by_cases hd1 : d.user1 = u1
      · have := h1 hd1
        omega
      · omega

/-- The subtask-creation loop only appends task rows. -/
theorem appendSubtasks_frame (o p : Nat) (s : Store)
    (l : List ValidatedSubtask) :
    (appendSubtasks o p s l).users = s.users ∧
    (appendSubtasks o p s l).conversations = s.conversations ∧
    (appendSubtasks o p s l).messages = s.messages := by
  induction l generalizing s with
  | nil => exact ⟨rfl, rfl, rfl⟩
  | cons v rest ih => exact ih _

/-- One iteration of the subtask upsert loop only touches task rows. -/
theorem applySubtaskEntry_frame (o i : Nat) (s : Store)
    (v : ValidatedSubtask) :
    (applySubtaskEntry o i s v).users = s.users ∧
    (applySubtaskEntry o i s v).conversations = s.conversations ∧
    (applySubtaskEntry o i s v).messages = s.messages := by
  unfold applySubtaskEntry
  split
  · split <;> exact ⟨rfl, rfl, rfl⟩
  · exact ⟨rfl, rfl, rfl⟩

/-- The whole subtask upsert loop only touches task rows. -/
theorem foldl_applySubtaskEntry_frame (o i : Nat) (s : Store)
    (l : List ValidatedSubtask) :
    ((l.foldl (applySubtaskEntry o i) s).users = s.users ∧
     (l.foldl (applySubtaskEntry o i) s).conversations = s.conversations ∧
     (l.foldl (applySubtaskEntry o i) s).messages = s.messages) := by
  induction l generalizing s with
  | nil => exact ⟨rfl, rfl, rfl⟩
  | cons v rest ih =>
      have h1 := applySubtaskEntry_frame o i s v
      have h2 := ih (applySubtaskEntry o i s v)
      exact ⟨h2.1.trans h1.1, h2.2.1.trans h1.2.1, h2.2.2.trans h1.2.2⟩

/-- `createTask` never touches users, conversations or messages. -/
theorem createTask_frame (s : Store) (caller : UserR) (fields : TaskPayload)
    (subs : List SubtaskPayload) :
    (createTask s caller fields subs).1.users = s.users ∧
    (createTask s caller fields subs).1.conversations = s.conversations ∧
    (createTask s caller fields subs).1.messages = s.messages := by
  unfold createTask
  split
  · exact appendSubtasks_frame _ _ _ _
  · exact ⟨rfl, rfl, rfl⟩

/-- `updateTask` never touches users, conversations or messages. -/
theorem updateTask_frame (s : Store) (caller : UserR) (pk : Nat)
    (fields : TaskPayload) (subs : List SubtaskPayload) :
    (updateTask s caller pk fields subs).1.users = s.users ∧
    (updateTask s caller pk fields subs).1.conversations = s.conversations ∧
    (updateTask s caller pk fields subs).1.messages = s.messages := by
  unfold updateTask
  split
  · exact ⟨rfl, rfl, rfl⟩
  · split
    · exact foldl_applySubtaskEntry_frame _ _ _ _
    · exact ⟨rfl, rfl, rfl⟩

/-- `add_subtask` never touches users, conversations or messages. -/
theorem add_subtask_frame (s : Store) (caller : UserR) (pk : Nat)
    (p : SubtaskPayload) :
    (add_subtask s caller pk p).1.users = s.users ∧
    (add_subtask s caller pk p).1.conversations = s.conversations ∧
    (add_subtask s caller pk p).1.messages = s.messages := by
  unfold add_subtask
  split
  · exact ⟨rfl, rfl, rfl⟩
  · split <;> exact ⟨rfl, rfl, rfl⟩

/-- `createTeam` never touches users, conversations or messages. -/
theorem createTeam_frame (s : Store) (caller : UserR)
    (name description : String) (memberIds : List Nat) :
    (createTeam s caller name description memberIds).1.users = s.users ∧
    (createTeam s caller name description memberIds).1.conversations =
      s.conversations ∧
    (createTeam s caller name description memberIds).1.messages =
      s.messages := by
  unfold createTeam
  split
  · split <;> exact ⟨rfl, rfl, rfl⟩
  · exact ⟨rfl, rfl, rfl⟩

/-- `set_password` never touches tasks, conversations or messages. -/
theorem set_password_frame (s : Store) (uid email pw : String) :
    (set_password s uid email pw).1.conversations = s.conversations ∧
    (set_password s uid email pw).1.messages = s.messages := by
  unfold set_password
  split
  · exact ⟨rfl, rfl⟩
  · split
    · exact ⟨rfl, rfl⟩
    · split <;> exact ⟨rfl, rfl⟩

/-- `postMessageToConversation` never touches the conversation table. -/
theorem postMessage_conversations (s : Store) (caller : UserR)
    (conversationId : Nat) (text : String) :
    (postMessageToConversation s caller conversationId text).1.conversations =
      s.conversations := by
  unfold postMessageToConversation
  split <;> rfl

/-- `sendMessage` preserves the conversation-store invariant. -/
theorem sendMessage_convInv (s : Store) (caller : UserR) (rid : Nat)
    (text : String) (h : convInv s) :
    convInv (sendMessage s caller rid text).1 := by
  unfold sendMessage
  cases s.users.find? (fun u => u.id == rid) with
  | none => exact h
  | some receiver => exact convInv_gocc s caller receiver h

/-- `chatHistory` preserves the conversation-store invariant. -/
theorem chatHistory_convInv (s : Store) (caller : UserR) (uid : Nat)
    (h : convInv s) : convInv (chatHistory s caller uid).1 := by
  unfold chatHistory
  cases s.users.find? (fun u => u.id == uid) with
  | none => exact h
  | some other => exact convInv_gocc s caller other h

/-- C2 (counterexample to the claim as stated): sending a message to
oneself — which `sendMessage` permits, there is no distinctness check —
stores a conversation row with `user1 = user2`, so the strict invariant
`user1.id < user2.id` does not hold after every conversation-saving
operation. -/
theorem C2_counterexample :
    convCanonicalStrict wStore0 ∧
    ¬ convCanonicalStrict (step wStore0 (Op.sendMsg 1 1 "hi")) := by
  decide

/-- C2 (amended): every modelled operation preserves the invariant that
each stored conversation row has `user1.id ≤ user2.id` (strict whenever
the participants differ, equal only for a self-conversation) and that
no two rows carry the same unordered pair of users. -/
theorem C2_conversation_store_invariant (s : Store) (op : Op)
    (h : convInv s) : convInv (step s op) := by
  cases op with
  | sendMsg cid rid text =>
      simp only [step]
      cases s.users.find? (fun u => u.id == cid) with
      | none => exact h
      | some caller => exact sendMessage_convInv s caller rid text h
  | chatHist cid oid =>
      simp only [step]
      cases s.users.find? (fun u => u.id == cid) with
      | none => exact h
      | some caller => exact chatHistory_convInv s caller oid h
  | listMsgs cid convId => exact h
  | postMsg cid convId text =>
      simp only [step]
      cases s.users.find? (fun u => u.id == cid) with
      | none => exact h
      | some caller =>
          exact convInv_of_conversations_eq
            (postMessage_conversations s caller convId text) h
  | convCreate cid =>
      simp only [step]
      cases s.users.find? (fun u => u.id == cid) with
      | none => exact h
      | some caller => exact h
  | teamCreate cid name description memberIds =>
      simp only [step]
      cases s.users.find? (fun u => u.id == cid) with
      | none => exact h
      | some caller =>
          exact convInv_of_conversations_eq
            (createTeam_frame s caller name description memberIds).2.1 h
  | taskCreate cid fields subs =>
      simp only [step]
      cases s.users.find? (fun u => u.id == cid) with
      | none => exact h
      | some caller =>
          exact convInv_of_conversations_eq
            (createTask_frame s caller fields subs).2.1 h
  | taskUpdate cid pk fields subs =>
      simp only [step]
      cases s.users.find? (fun u => u.id == cid) with
      | none => exact h
      | some caller =>
          exact convInv_of_conversations_eq
            (updateTask_frame s caller pk fields subs).2.1 h
  | subtaskAdd cid pk p =>
      simp only [step]
      cases s.users.find? (fun u => u.id == cid) with
      | none => exact h
      | some caller =>
          exact convInv_of_conversations_eq
            (add_subtask_frame s caller pk p).2.1 h
  | passwordSet uid email pw =>
      exact convInv_of_conversations_eq
        (set_password_frame s uid email pw).1 h

/-- Witness for the amended C2 at a concrete store and operation. -/
theorem C2_witness :
    convInv wStore1 ∧ convInv (step wStore1 (Op.sendMsg 1 2 "hello")) :=
  ⟨by decide, C2_conversation_store_invariant wStore1 _ (by decide)⟩

/-- `msgInv` transports along unchanged messages and a conversation
superset. -/
theorem msgInv_mono {s1 s2 : Store} (hm : s2.messages = s1.messages)
    (hc : ∀ c ∈ s1.conversations, c ∈ s2.conversations) (h : msgInv s1) :
    msgInv s2 := by
  intro m hmem
  rw [hm] at hmem
  obtain ⟨c, hcmem, hcp⟩ := h m hmem
  exact ⟨c, hc c hcmem, hcp⟩

/-- `msgInv` only looks at the message and conversation tables. -/
theorem msgInv_of_eq {s1 s2 : Store} (hm : s2.messages = s1.messages)
    (hcv : s2.conversations = s1.conversations) (h : msgInv s1) :
    msgInv s2 :=
  msgInv_mono hm (fun _c hc => hcv ▸ hc) h

/-- `sendMessage` preserves the sender-is-participant invariant: the
appended message's sender is the caller, who is a participant of the
conversation returned by `get_or_create_conversation`. -/
theorem sendMessage_msgInv (s : Store) (caller : UserR) (rid : Nat)
    (text : String) (h : msgInv s) :
    msgInv (sendMessage s caller rid text).1 := by
  unfold sendMessage
  cases s.users.find? (fun u => u.id == rid) with
  | none => exact h
  | some receiver =>
      intro m hm
      rcases List.mem_append.1 hm with hm | hm
      · have hmsg := (gocc_frame s caller receiver).2.2.2.1
        rw [hmsg] at hm
        obtain ⟨c, hcmem, hcp⟩ := h m hm
        exact ⟨c, gocc_conversations_mem s caller receiver c hcmem, hcp⟩
      · rw [List.mem_singleton.1 hm]
        refine ⟨(get_or_create_conversation s caller receiver).2.1,
          gocc_row_mem s caller receiver, rfl, ?_⟩
        rcases gocc_row_has_caller s caller receiver with h1 | h1
        · exact Or.inl h1.symm
        · exact Or.inr h1.symm

/-- `chatHistory` preserves the sender-is-participant invariant. -/
theorem chatHistory_msgInv (s : Store) (caller : UserR) (uid : Nat)
    (h : msgInv s) : msgInv (chatHistory s caller uid).1 := by
  unfold chatHistory
  cases s.users.find? (fun u => u.id == uid) with
  | none => exact h
  | some other =>
      exact msgInv_mono (gocc_frame s caller other).2.2.2.1
        (gocc_conversations_mem s caller other) h

/-- C5 (counterexample to the claim as stated): the per-conversation
message endpoint saves `sender = caller` without checking that the
caller is a participant, so user 3 can append a message to the
conversation between users 1 and 2, breaking the invariant. -/
theorem C5_counterexample :
    msgInv wStore1 ∧ ¬ msgInv (step wStore1 (Op.postMsg 3 1 "intrude")) := by
  decide

/-- C5 (amended): every modelled operation other than a POST to the
per-conversation message endpoint preserves the invariant that each
stored message's sender is one of the two participants of its
conversation; that endpoint performs no participant check on create and
is the sole exception. -/
theorem C5_sender_is_participant (s : Store) (op : Op)
    (hop : isPostMsg op = false) (h : msgInv s) : msgInv (step s op) := by
  cases op with
  | sendMsg cid rid text =>
      simp only [step]
      cases s.users.find? (fun u => u.id == cid) with
      | none => exact h
      | some caller => exact sendMessage_msgInv s caller rid text h
  | chatHist cid oid =>
      simp only [step]
      cases s.users.find? (fun u => u.id == cid) with
      | none => exact h
      | some caller => exact chatHistory_msgInv s caller oid h
  | listMsgs cid convId => exact h
  | postMsg cid convId text => simp [isPostMsg] at hop
  | convCreate cid =>
      simp only [step]
      cases s.users.find? (fun u => u.id == cid) with
      | none => exact h
      | some caller => exact h
  | teamCreate cid name description memberIds =>
      simp only [step]
      cases s.users.find? (fun u => u.id == cid) with
      | none => exact h
      | some caller =>
          have hf := createTeam_frame s caller name description memberIds
          exact msgInv_of_eq hf.2.2 hf.2.1 h
  | taskCreate cid fields subs =>
      simp only [step]
      cases s.users.find? (fun u => u.id == cid) with
      | none => exact h
      | some caller =>
          have hf := createTask_frame s caller fields subs
          exact msgInv_of_eq hf.2.2 hf.2.1 h
  | taskUpdate cid pk fields subs =>
      simp only [step]
      cases s.users.find? (fun u => u.id == cid) with
      | none => exact h
      | some caller =>
          have hf := updateTask_frame s caller pk fields subs
          exact msgInv_of_eq hf.2.2 hf.2.1 h
  | subtaskAdd cid pk p =>
      simp only [step]
      cases s.users.find? (fun u => u.id == cid) with
      | none => exact h
      | some caller =>
          have hf := add_subtask_frame s caller pk p
          exact msgInv_of_eq hf.2.2 hf.2.1 h
  | passwordSet uid email pw =>
      have hf := set_password_frame s uid email pw
      exact msgInv_of_eq hf.2 hf.1 h

/-- Witness for the amended C5 at a concrete store and operation. -/
theorem C5_witness :
    isPostMsg (Op.sendMsg 1 2 "hi") = false ∧ msgInv wStore1 ∧
    msgInv (step wStore1 (Op.sendMsg 1 2 "hi")) :=
  ⟨by decide, by decide,
   C5_sender_is_participant wStore1 _ (by decide) (by decide)⟩

/-- C3 (the code at the failing input): a caller with both role flags
false — for whom `IsAdminOrTeamLead` would answer false — still gets a
team created: `TeamViewSet.get_permissions` attaches only
`IsAuthenticated` to the `create` action, so the request is not denied
and a team row with the caller as creator and member is stored. -/
theorem C3_create_team_not_gated :
    is_admin_or_teamlead wUserA = false ∧
    (createTeam wStore0 wUserA "T" "" []).2 = Except.ok 1 ∧
    (createTeam wStore0 wUserA "T" "" []).1.teams =
      [{ id := 1, name := "T", description := "", createdBy := 1,
         members := [1] }] :=
  ⟨by decide, rfl, by decide⟩

/-- C4 (the code at the failing input): an `updateTask` call whose
subtask entry carries the id of the existing subtask (row 2 of the
parent task 1) does not update that row — `SubtaskCreateSerializer`
declares no `id` field, so validation drops the key and
`sub.get("id")` is always `None` — instead a third task row is
appended and the existing subtask keeps its old title. -/
theorem C4_update_subtask_id_dropped :
    validateSubtask wSubWithId =
      some { id := none, title := "New", description := none,
             startDate := 10, endDate := 20, priority := "LOW",
             status := "PENDING" } ∧
    (updateTask wStore3 wUserA 1 wFields [wSubWithId]).1.tasks =
      [wTaskMain, wTaskSub,
       { id := 3, title := "New", description := "", createdBy := 1,
         parentTask := some 1, startDate := 10, endDate := 20,
         priority := "LOW", status := "PENDING" }] := by
  decide

/-- C6: `listMessages` fails closed — a caller who is neither `user1`
nor `user2` of the conversation gets the empty list — and for a
participant it returns exactly the conversation's messages, in
non-decreasing timestamp order. -/
theorem C6_listMessages_participant_gate (s : Store) (caller : UserR)
    (cid : Nat) (conv : ConversationR)
    (hfind : s.conversations.find? (fun c => c.id == cid) = some conv) :
    (caller.id ≠ conv.user1 ∧ caller.id ≠ conv.user2 →
      listMessages s caller cid = .ok []) ∧
    (caller.id = conv.user1 ∨ caller.id = conv.user2 →
      ∃ l, listMessages s caller cid = .ok l ∧
        l.Perm (s.messages.filter (fun m => m.conversation == conv.id)) ∧
        l.Pairwise tsLe) := by
  unfold listMessages
  rw [hfind]
  simp only []
  constructor
  · intro hnp
    rw [if_pos hnp]
  · intro hp
    rw [if_neg (fun hc => hp.elim hc.1 hc.2)]
    exact ⟨_, rfl, List.perm_insertionSort _ _, List.sorted_insertionSort _ _⟩

/-- Witness for C6: non-participant user 3 gets an empty list from
conversation 1; participant user 1 gets the two stored messages in
timestamp order. -/
theorem C6_witness :
    listMessages wStore2 wUserC 1 = Except.ok [] ∧
    ∃ l, listMessages wStore2 wUserA 1 = Except.ok l ∧
      l.Perm (wStore2.messages.filter (fun m => m.conversation == wConv1.id)) ∧
      l.Pairwise tsLe :=
  ⟨(C6_listMessages_participant_gate wStore2 wUserC 1 wConv1 (by decide)).1
     (by decide),
   (C6_listMessages_participant_gate wStore2 wUserA 1 wConv1 (by decide)).2
     (Or.inl (by decide))⟩

/-- DRF validates `subtasks_data` as a whole: one invalid entry makes
the whole list validation fail. -/
theorem validateSubtasks_none (subs : List SubtaskPayload)
    (p : SubtaskPayload) (hp : p ∈ subs) (hbad : validateSubtask p = none) :
    validateSubtasks subs = none := by
  induction subs with
  | nil => cases hp
  | cons x xs ih =>
      rcases List.mem_cons.1 hp with h | h
      · subst h
        unfold validateSubtasks
        rw [hbad]
      · unfold validateSubtasks
        rw [ih h]
        cases validateSubtask x <;> rfl

/-- C7: `createTask` is atomic — when any subtask payload in the batch
is invalid, the request fails with a validation error and the store is
returned unchanged: no top-level task row and no subtask row is
persisted. -/
theorem C7_createTask_atomic (s : Store) (caller : UserR)
    (fields : TaskPayload) (subs : List SubtaskPayload)
    (p : SubtaskPayload) (hp : p ∈ subs) (hbad : validateSubtask p = none) :
    createTask s caller fields subs = (s, .error .validationError) := by
  unfold createTask
  rw [validateSubtasks_none subs p hp hbad]
  cases validateTaskFields fields <;> rfl

/-- Witness for C7: a batch whose only subtask has an invalid priority
persists nothing. -/
theorem C7_witness :
    wBadSub ∈ [wBadSub] ∧ validateSubtask wBadSub = none ∧
    createTask wStore3 wUserA wFields [wBadSub] =
      (wStore3, .error .validationError) :=
  ⟨by decide, by decide,
   C7_createTask_atomic wStore3 wUserA wFields [wBadSub] wBadSub
     (by decide) (by decide)⟩

/-- C8: `add_subtask` replies not-found — creating nothing — whenever
every stored task with the requested id is either not owned by the
caller or itself has a parent task (and in particular when no task has
that id); it can never succeed on a task that is itself a subtask. -/
theorem C8_add_subtask_not_found (s : Store) (caller : UserR) (pk : Nat)
    (p : SubtaskPayload)
    (h : ∀ t ∈ s.tasks, t.id = pk →
      t.createdBy ≠ caller.id ∨ t.parentTask ≠ none) :
    add_subtask s caller pk p = (s, .error .notFound) := by
  unfold add_subtask
  have hn : s.tasks.find?
      (fun t => t.id == pk && t.createdBy == caller.id
        && t.parentTask == none) = none := by
    rw [List.find?_eq_none]
    intro t ht hc
    simp only [Bool.and_eq_true, beq_iff_eq] at hc
    rcases h t ht hc.1.1 with hx | hx
    · exact hx hc.1.2
    · exact hx hc.2
  rw [hn]

/-- Witness for C8: adding a subtask to task 2, which itself has
`parent_task = 1`, is rejected with not-found and changes nothing. -/
theorem C8_witness :
    (∀ t ∈ wStore3.tasks, t.id = 2 →
      t.createdBy ≠ wUserA.id ∨ t.parentTask ≠ none) ∧
    add_subtask wStore3 wUserA 2 wGoodSub = (wStore3, .error .notFound) :=
  ⟨by decide, C8_add_subtask_not_found wStore3 wUserA 2 wGoodSub (by decide)⟩

/-- `find?` after an UPDATE-by-primary-key: if the row `u` was the first
match of `p` and the replacement `w` (same primary key) still matches
`p`, then `w` is the first match afterwards. -/
theorem find?_updateUserRow (l : List UserR) (p : UserR → Bool)
    (u w : UserR) (hfind : l.find? p = some u) (hw : p w = true)
    (hid : w.id = u.id) :
    (l.map (fun v => if v.id == w.id then w else v)).find? p = some w := by
  induction l with
  | nil => simp at hfind
  | cons x xs ih =>
      by_cases hx : p x
      · rw [List.find?_cons_of_pos _ hx] at hfind
        have hxu : x = u := Option.some_injective _ hfind
        subst hxu
        rw [List.map_cons, if_pos (by rw [hid]; exact beq_iff_eq.2 rfl)]
        exact List.find?_cons_of_pos _ hw
      · rw [List.find?_cons_of_neg _ hx] at hfind
        rw [List.map_cons]
        by_cases hxw : x.id == w.id
        · rw [if_pos hxw]
          exact List.find?_cons_of_pos _ hw
        · rw [if_neg hxw]
          rw [List.find?_cons_of_neg _ hx]
          exact ih hfind

/-- C9: the set-password operation succeeds at most once per user.  If
the credential of the addressed user is already usable the request
fails with a validation error and the store is unchanged; otherwise it
succeeds, rewriting exactly that user's row with a usable credential
and `is_active = true` — after which any further attempt fails with a
validation error and no further mutation. -/
theorem C9_set_password_once (s : Store) (uid email pw : String) (u : UserR)
    (hfind : s.users.find?
      (fun v => v.userId == uid && v.email == email) = some u)
    (hpw : pw ≠ "") :
    (u.passwordUsable = true →
      set_password s uid email pw = (s, .error .validationError)) ∧
    (u.passwordUsable = false →
      (set_password s uid email pw).2 = .ok () ∧
      (set_password s uid email pw).1.users =
        updateUserRow s.users
          { u with passwordUsable := true, isActive := true } ∧
      ∀ pw2, pw2 ≠ "" →
        set_password (set_password s uid email pw).1 uid email pw2 =
          ((set_password s uid email pw).1, .error .validationError)) := by
  constructor
  · intro hu
    simp [set_password, hpw, hfind, hu]
  · intro hu
    have hstep : set_password s uid email pw =
        ({ s with users := updateUserRow s.users { u with passwordUsable := true, isActive := true } }, .ok ()) := by
      simp [set_password, hpw, hfind, hu]
    have hfind2 : (updateUserRow s.users
        { u with passwordUsable := true, isActive := true }).find?
          (fun v => v.userId == uid && v.email == email) =
        some { u with passwordUsable := true, isActive := true } :=
      find?_updateUserRow s.users _ u _ hfind
        (by simpa using List.find?_some hfind) rfl
    refine ⟨by rw [hstep], by rw [hstep], ?_⟩
    intro pw2 hpw2
    rw [hstep]
    show set_password
        { s with users := updateUserRow s.users { u with passwordUsable := true, isActive := true } }
        uid email pw2 = (_, .error .validationError)
    simp [set_password, hpw2, hfind2]

/-- Witness for C9: user 2 (no usable credential) sets a password; the
row becomes usable and active, and a second attempt is rejected. -/
theorem C9_witness :
    (set_password wStore0 "bob" "bob@x.com" "pw1").2 = .ok () ∧
    (set_password wStore0 "bob" "bob@x.com" "pw1").1.users =
      updateUserRow wStore0.users
        { wUserB with passwordUsable := true, isActive := true } ∧
    set_password (set_password wStore0 "bob" "bob@x.com" "pw1").1
        "bob" "bob@x.com" "pw2" =
      ((set_password wStore0 "bob" "bob@x.com" "pw1").1,
       .error .validationError) := by
  have h := (C9_set_password_once wStore0 "bob" "bob@x.com" "pw1" wUserB
    (by decide) (by decide)).2 (by decide)
  exact ⟨h.1, h.2.1, h.2.2 "pw2" (by decide)⟩

/-- C10: the chat-history GET is not read-only — when the caller and the
target user have no conversation yet, it creates the canonical
conversation row (smaller id first) as a side effect and returns the
empty message list, leaving every other part of the store unchanged. -/
theorem C10_chat_history_creates_conversation (s : Store) (caller : UserR)
    (userId : Nat) (other : UserR)
    (hother : s.users.find? (fun u => u.id == userId) = some other)
    (hnoconv : ∀ c ∈ s.conversations,
      matchesPair c caller.id other.id = false)
    (hfresh : ∀ m ∈ s.messages, m.conversation ≠ s.nextConvId) :
    chatHistory s caller userId =
      ({ s with
         conversations := s.conversations ++ [{ id := s.nextConvId, user1 := min caller.id other.id, user2 := max caller.id other.id }],
         nextConvId := s.nextConvId + 1,
         now := s.now + 1 },
       .ok []) := by
  obtain ⟨u1, u2, hperm, hle, hcase⟩ := gocc_spec s caller other
  rcases hcase with ⟨hsome, _⟩ | ⟨hnone, hrow, heq⟩
  · exfalso
    have hmem := List.mem_of_find?_eq_some hsome
    have hp := List.find?_some hsome
    rw [Bool.and_eq_true, beq_iff_eq, beq_iff_eq] at hp
    have hc := hnoconv _ hmem
    simp only [matchesPair, Bool.or_eq_false_iff, Bool.and_eq_false_iff,
      beq_eq_false_iff_ne, ne_eq] at hc
    rcases hperm with ⟨h1, h2⟩ | ⟨h1, h2⟩ <;> omega
  · have hfil : List.filter (fun m => m.conversation == s.nextConvId)
        s.messages = [] := by
      rw [List.filter_eq_nil_iff]
      intro m hm
      simp only [beq_iff_eq]
      exact hfresh m hm
    unfold chatHistory
    rw [hother]
    simp only []
    rw [heq, hrow]
    simp only []
    have hmin : u1 = min caller.id other.id := by
      rcases hperm with ⟨h1, h2⟩ | ⟨h1, h2⟩ <;> omega
    have hmax : u2 = max caller.id other.id := by
      rcases hperm with ⟨h1, h2⟩ | ⟨h1, h2⟩ <;> omega
    rw [hmin, hmax, hfil]
    rfl

/-- Witness for C10: users 1 and 2 have no conversation; a chat-history
GET by user 1 for user 2 creates the canonical row and returns no
messages. -/
theorem C10_witness :
    chatHistory wStore0 wUserA 2 =
      ({ wStore0 with
         conversations := wStore0.conversations ++ [{ id := wStore0.nextConvId, user1 := min wUserA.id wUserB.id, user2 := max wUserA.id wUserB.id }],
         nextConvId := wStore0.nextConvId + 1,
         now := wStore0.now + 1 },
       .ok []) :=
  C10_chat_history_creates_conversation wStore0 wUserA 2 wUserB
    (by decide) (by decide) (by decide)
